import Mathlib

/-!
Shallow embedding of the dynamicIndexer repository (Flask API `app.py`,
watcher scripts `blockWatcher.py` / `block_watcher2.py`, job scripts
`authLooperBackend.py` / `indexLooper.py`) together with a model of the
Lease Engine described by the specification.  Each definition mirrors one
function of the Python source; theorems settle the specification claims.
-/

namespace DynamicIndexer

/-- Boolean substring test, modelling Python's `needle in haystack`. -/
def strContains (s pat : String) : Bool :=
  (List.range (s.toList.length + 1)).any fun i =>
    List.isPrefixOf pat.toList (s.toList.drop i)

/-! ### Job Singleton Guard — `app.py` `_running` / `_spawn`

`_running(lock)` reads the lock file, parses a pid, and inspects
`/proc/<pid>` and `/proc/<pid>/status`.  Any exception on that path
(unreadable or unparsable marker, missing `/proc` entry, failed status
read, zombie state) falls into the `except` clause which unlinks the
marker and returns `False`. -/

/-- State of the `/proc/<pid>` entry for one pid: the directory may be
absent, present but with an unreadable `status` file (the read raises),
or present with readable `status` content. -/
inductive ProcEntry where
  | absent
  | unreadable
  | statusIs (s : String)
deriving DecidableEq, Repr

/-- The slice of the filesystem the guard touches: the lock file
(`none` = file absent, `some none` = file exists but its content is
unreadable or does not parse as an integer, `some (some pid)` = file
exists and parses to `pid`) and the process table. -/
structure FS where
  lock : Option (Option Nat)
  proc : Nat → ProcEntry

/-- Marker substring checked by `_running`: `"\nState:\tZ" in status`. -/
def zombieMarker : String := "\nState:\tZ"

/-- Zombie test on the `/proc/<pid>/status` content. -/
def isZombie (s : String) : Bool := strContains s zombieMarker

/-- Embedding of `_running(lock)` (`app.py` lines 56–68).  Returns the
boolean result together with the filesystem after the call (the `except`
clause performs `p.unlink(missing_ok=True)`). -/
def runningCheck (fs : FS) : Bool × FS :=
  match fs.lock with
  | none => (false, fs)
  | some none => (false, { fs with lock := none })
  | some (some pid) =>
    match fs.proc pid with
    | ProcEntry.absent => (false, { fs with lock := none })
    | ProcEntry.unreadable => (false, { fs with lock := none })
    | ProcEntry.statusIs s =>
      if isZombie s then (false, { fs with lock := none })
      else (true, fs)

/-- Result of `_spawn`: HTTP 409 `{"status": "busy"}` or HTTP 202
`{"status": "started"}` with the pid of the newly spawned process. -/
inductive SpawnRes where
  | busy409
  | started202 (pid : Nat)
deriving DecidableEq, Repr

/-- Embedding of `_spawn(script, lock, env_var)` (`app.py` lines 71–81):
if `_running(lock)` the request is rejected with 409 and nothing is
spawned; otherwise a process with fresh pid `newPid` is spawned and its
pid is written into the lock file. -/
def spawn (fs : FS) (newPid : Nat) : SpawnRes × FS :=
  let r := runningCheck fs
  if r.1 then (SpawnRes.busy409, r.2)
  else (SpawnRes.started202 newPid, { r.2 with lock := some (some newPid) })

/-- Embedding of the `atexit` hook of `authLooperBackend.py` (lines 9–13):
`os.remove(LOCK_FILE) if os.path.exists(LOCK_FILE) else None`. -/
def authExitCleanup (fs : FS) : FS :=
  match fs.lock with
  | some _ => { fs with lock := none }
  | none => fs

/-- Embedding of the `atexit` hook of `indexLooper.py` (lines 23–25):
`Path(LOCK_FILE).unlink(missing_ok=True)`. -/
def indexExitCleanup (fs : FS) : FS :=
  { fs with lock := none }

/-! ### Block watchers — `scripts/blockWatcher.py` and
`scripts/block_watcher2.py`

External effects (HTTP fetches, DynamoDB writes, the announce POST) are
modelled as oracles returning `Except String α`: `.error e` means the
Python call raised an exception with message `e`.  An iteration of a
watcher main loop is translated as a function returning the updated
state together with an `Option String` escape component: `some e` means
an exception reached that point uncaught. -/

/-- Fields of a Blockstream block object used by the watchers. -/
structure Block where
  height : Nat
  bits : String
  hash : String
  stamp : Nat
deriving DecidableEq, Repr

/-- Embedding of `criteria(block)` in `blockWatcher.py`:
`"8b" in block.get("bits", "")`. -/
def criteria (b : Block) : Bool := strContains b.bits "8b"

/-- Translation of both `announce` helpers (`blockWatcher.py` lines
52–66, `block_watcher2.py` lines 40–45): the POST outcome `r` is run
inside `try/except Exception`, a failure only appends a warning line to
the logs; the escape component of the result is the exception, if any,
leaving this translated `try` block. -/
def announceCaught (r : Except String Unit) (tag : String) (logs : List String) :
    List String × Option String :=
  match r with
  | Except.ok _ => (logs, none)
  | Except.error e => (logs ++ [tag ++ e], none)

/-- Oracle environment for one `blockWatcher.py` iteration. -/
structure WEnv where
  tip : Except String Nat
  blockOf : Nat → Except String Block
  putOutcome : Nat → Except String Unit
  postOutcome : Nat → Except String Unit

/-- Observable state of `blockWatcher.py`: the `last` variable, the rows
written to DynamoDB (in write order), the content of
`state/last_height.txt`, and the printed log lines. -/
structure WState where
  last : Nat
  rows : List Block
  savedLast : Nat
  logs : List String

/-- Translation of the `for h in range(last + 1, tip + 1)` loop body of
`blockWatcher.py` `main`: fetch the block, on a criteria match put the
row and announce it (announce failures caught locally), then save the
height.  An exception from the fetch or the put aborts the loop,
keeping the effects performed so far, and escapes. -/
def processRange (env : WEnv) (st : WState) : List Nat → WState × Option String
  | [] => (st, none)
  | h :: hs =>
    match env.blockOf h with
    | Except.error e => (st, some e)
    | Except.ok blk =>
      if criteria blk then
        match env.putOutcome h with
        | Except.error e => (st, some e)
        | Except.ok _ =>
          let st1 := { st with rows := st.rows ++ [blk] }
          let ar := announceCaught (env.postOutcome h) "WARN: announce failed: " st1.logs
          match ar.2 with
          | some e => ({ st1 with logs := ar.1 }, some e)
          | none => processRange env { st1 with logs := ar.1, savedLast := h } hs
      else
        processRange env { st with savedLast := h } hs

/-- Body of one `blockWatcher.py` `main`-loop iteration, without the
surrounding `try/except`:  fetch the tip; if it advanced, walk the new
heights and set `last = tip` on completion. -/
def watcherBody (env : WEnv) (st : WState) : WState × Option String :=
  match env.tip with
  | Except.error e => (st, some e)
  | Except.ok tip =>
    if tip > st.last then
      match processRange env st (List.range' (st.last + 1) (tip - st.last)) with
      | (st1, some e) => (st1, some e)
      | (st1, none) => ({ st1 with last := tip }, none)
    else (st, none)

/-- One full iteration of `blockWatcher.py` `main` (lines 81–100): the
body runs inside `try: ... except Exception as e: print("ERROR:", e)`,
so every escape from the body is caught here and logged. -/
def watcherIter (env : WEnv) (st : WState) : WState × Option String :=
  match watcherBody env st with
  | (st1, some e) => ({ st1 with logs := st1.logs ++ ["ERROR: " ++ e] }, none)
  | (st1, none) => (st1, none)

/-- One pending row returned by the `confirm_pending_inscriptions` scan
of `block_watcher2.py`: the `block` key and the `inscription_id`. -/
structure PendItem where
  block : Nat
  inscriptionId : String
deriving DecidableEq, Repr

/-- Oracle environment for one `block_watcher2.py` iteration. -/
structure W2Env where
  tip : Except String Nat
  blockOf : Nat → Except String Block
  putOutcome : Nat → Except String Unit
  postOutcome : Nat → Except String Unit
  scanItems : Except String (List PendItem)
  txStatus : String → Except String Bool
  updOutcome : Nat → Except String Unit
  confirmPostOutcome : Nat → Except String Unit

/-- Observable state of `block_watcher2.py`: `last`, the rows written by
`write_block`, the blocks flipped to `confirmed=True`, the content of
`state/last_height2.txt`, and the log lines. -/
structure W2State where
  last : Nat
  rows : List Block
  confirmedBlocks : List Nat
  savedLast : Nat
  logs : List String

/-- Python's `txid.split("i")[0]`: the characters before the first `i`. -/
def txidOf (s : String) : String :=
  (s.toList.takeWhile fun c => c != 'i').asString

/-- Translation of the item loop of `confirm_pending_inscriptions`
(`block_watcher2.py` lines 56–83): `tx_confirmed` and `update_item` may
raise and escape; the confirm announce is caught locally. -/
def confirmLoop (env : W2Env) (st : W2State) : List PendItem → W2State × Option String
  | [] => (st, none)
  | it :: its =>
    match env.txStatus (txidOf it.inscriptionId) with
    | Except.error e => (st, some e)
    | Except.ok ok =>
      if ok then
        match env.updOutcome it.block with
        | Except.error e => (st, some e)
        | Except.ok _ =>
          let st1 := { st with confirmedBlocks := st.confirmedBlocks ++ [it.block] }
          let ar := announceCaught (env.confirmPostOutcome it.block)
            "WARN announce-block: " st1.logs
          match ar.2 with
          | some e => ({ st1 with logs := ar.1 }, some e)
          | none => confirmLoop env { st1 with logs := ar.1 } its
      else confirmLoop env st its

/-- Translation of the height loop of `block_watcher2.py` `main`:
`fetch_block` and `write_block` may raise and escape; the announce is
caught locally; `save_last(h)` runs after a successful write. -/
def w2Process (env : W2Env) (st : W2State) : List Nat → W2State × Option String
  | [] => (st, none)
  | h :: hs =>
    match env.blockOf h with
    | Except.error e => (st, some e)
    | Except.ok blk =>
      match env.putOutcome h with
      | Except.error e => (st, some e)
      | Except.ok _ =>
        let st1 := { st with rows := st.rows ++ [blk] }
        let ar := announceCaught (env.postOutcome h) "WARN announce-block: " st1.logs
        match ar.2 with
        | some e => ({ st1 with logs := ar.1 }, some e)
        | none => w2Process env { st1 with logs := ar.1, savedLast := h } hs

/-- Body of one `block_watcher2.py` `main`-loop iteration, without the
surrounding `try/except`: tip fetch, height loop, then the
`confirm_pending_inscriptions()` scan — all of which may escape. -/
def w2Body (env : W2Env) (st : W2State) : W2State × Option String :=
  match env.tip with
  | Except.error e => (st, some e)
  | Except.ok tip =>
    let stage :=
      if tip > st.last then
        match w2Process env st (List.range' (st.last + 1) (tip - st.last)) with
        | (st1, some e) => (st1, some e)
        | (st1, none) => ({ st1 with last := tip }, none)
      else (st, none)
    match stage with
    | (st1, some e) => (st1, some e)
    | (st1, none) =>
      match env.scanItems with
      | Except.error e => (st1, some e)
      | Except.ok items => confirmLoop env st1 items

/-- One full iteration of `block_watcher2.py` `main` (lines 103–128):
the body runs inside `try: ... except Exception as e: print("ERROR:", e)`,
so every escape from the body is caught here and logged. -/
def w2Iter (env : W2Env) (st : W2State) : W2State × Option String :=
  match w2Body env st with
  | (st1, some e) => ({ st1 with logs := st1.logs ++ ["ERROR: " ++ e] }, none)
  | (st1, none) => (st1, none)

/-! ### Export route — `app.py` `export_index` (lines 381–421) -/

/-- Little-endian decimal digits of `n`, computed with explicit fuel so
that it evaluates by `decide`; models Python's `str(h)` viewed as its
multiset of digit characters. -/
def decDigitsGo : Nat → Nat → List Nat
  | 0, _ => []
  | _, 0 => []
  | fuel + 1, n => n % 10 :: decDigitsGo fuel (n / 10)

/-- Decimal digits of `n` (`decDigits 0 = []`, matching that `str(0)`
contains neither `'6'` nor `'9'` — `"0"` has only the digit 0;
`decDigits` of a positive number lists every decimal digit). -/
def decDigits (n : Nat) : List Nat := decDigitsGo n n

/-- Fields of a `dynamicIndex1` row used by `export_index`. -/
structure Row where
  blockNumber : Nat
  inscriptionID : Option String
deriving DecidableEq, Repr

/-- The DynamoDB scan filter of `export_index`:
`Attr("inscriptionID").exists() & Attr("inscriptionID").size().gt(64)`. -/
def exportPred (r : Row) : Bool :=
  match r.inscriptionID with
  | some iid => iid.length > 64
  | none => false

/-- One attribute object `{"value": …, "trait_type": …}`. -/
structure Trait where
  value : String
  traitType : String
deriving DecidableEq, Repr

/-- Trait list built by `export_index` for block height `h`: `Trait 6`
when `"6" in str(h)`, then `Trait 9` when `"9" in str(h)`. -/
def traitsOf (h : Nat) : List Trait :=
  (if (decDigits h).contains 6 then [⟨"true", "Trait 6"⟩] else []) ++
    (if (decDigits h).contains 9 then [⟨"true", "Trait 9"⟩] else [])

/-- One element of the exported JSON array. -/
structure Entry where
  id : String
  name : String
  attributes : List Trait
  imgUrl : String
deriving DecidableEq, Repr

/-- The object appended to `out` for one row. -/
def entryOf (r : Row) : Entry :=
  { id := r.inscriptionID.getD ""
    name := "Natcat #" ++ toString r.blockNumber
    attributes := traitsOf r.blockNumber
    imgUrl := "https://renderer.magiceden.dev/v2/dmt-natcats?v=2&block="
      ++ toString r.blockNumber }

/-- The `for it in items` accumulation loop of `export_index`. -/
def exportGo : List Row → List Entry → List Entry
  | [], out => out
  | r :: rest, out => exportGo rest (out ++ [entryOf r])

/-- Embedding of `export_index` (`app.py` lines 381–421): scan with the
filter, then build the output array row by row. -/
def exportIndex (rows : List Row) : List Entry :=
  exportGo (rows.filter exportPred) []

/-! ### Bulk enqueue — `app.py` `bulk_enqueue` (lines 427–450) -/

/-- The inscription payload built by `build_payload(block)` in
`inscription_utils.py`. -/
structure Payload where
  p : String
  op : String
  tick : String
  blk : Nat
deriving DecidableEq, Repr

/-- Embedding of `build_payload`. -/
def buildPayload (block : Nat) : Payload :=
  { p := "ubit", op := "mint", tick := "placeholder", blk := block }

/-- The delegate inscription id constant `DELEGATE_ID`. -/
def delegateId : String :=
  "66475024139f5a7500b48ac688a7418fdf5838a7eabbc7e6792b7dc7829c8ef7i0"

/-- One row of the `bulkInscribeQueue1` table. -/
structure QItem where
  blockNumber : Nat
  payload : Payload
  delegate : String
  qstatus : String
  created : String
deriving DecidableEq, Repr

/-- Key-existence test behind the conditional write
`attribute_not_exists(block_number)`. -/
def hasKey (st : List QItem) (b : Nat) : Bool :=
  st.any fun it => it.blockNumber == b

/-- The item `bulk_enqueue` writes for block `b` at wall-clock `now`. -/
def mkQItem (b : Nat) (now : String) : QItem :=
  { blockNumber := b, payload := buildPayload b, delegate := delegateId
    qstatus := "pending", created := now }

/-- The `for b in blocks` loop of `bulk_enqueue`: a conditional
`put_item` guarded by `attribute_not_exists(block_number)`; a
`ConditionalCheckFailedException` (key already present) is swallowed and
`added` is not incremented. -/
def bulkEnqueueGo (now : String) : List Nat → List QItem → Nat → List QItem × Nat
  | [], st, added => (st, added)
  | b :: bs, st, added =>
    if hasKey st b then bulkEnqueueGo now bs st added
    else bulkEnqueueGo now bs (st ++ [mkQItem b now]) (added + 1)

/-- Embedding of `bulk_enqueue` (`app.py` lines 427–450): returns the
table after the request together with the reported `added` count. -/
def bulkEnqueue (st : List QItem) (blocks : List Nat) (now : String) :
    List QItem × Nat :=
  bulkEnqueueGo now blocks st 0

/-! ### Lease Engine and Expiry Sweeper

The Lease Engine / Sweeper implementation itself (the `Reserve`,
`Release`, `SweepExpired` operations of spec §4.1–§4.2) is not among the
source files under version control here; the definitions below are built
from the specification text and are marked as such. -/

/-- Modelled from the spec: the `status` enum of a block record
(§3, the Lease Engine implementation is missing from the sources). -/
inductive BStatus where
  | available
  | reserved
  | minted
deriving DecidableEq, Repr

/-- Modelled from the spec: one block record (§3).  Timestamps are
milliseconds since epoch. -/
structure BlockRec where
  recStatus : BStatus
  holder : Option String
  leaseExpiry : Option Nat
  lastMutated : Nat
deriving DecidableEq, Repr

deriving instance DecidableEq for Except

/-- Modelled from the spec: the Shared Store Adapter's key-value state,
one record per integer block id (§2). -/
abbrev Store := List (Nat × BlockRec)

/-- Point read of the store. -/
def lookupBlock : Store → Nat → Option BlockRec
  | [], _ => none
  | (k, r) :: rest, b => if k = b then some r else lookupBlock rest b

/-- Point write of the store: replace the record under key `b`, or
append a fresh record (first-touch creation). -/
def upsert : Store → Nat → BlockRec → Store
  | [], b, r => [(b, r)]
  | (k, x) :: rest, b, r =>
    if k = b then (k, r) :: rest else (k, x) :: upsert rest b r

/-- Modelled from the spec: error taxonomy of the Lease Engine (§7). -/
inductive ReserveErr where
  | NotAvailable
  | HolderConflict (other : Nat)
deriving DecidableEq, Repr

/-- Modelled from the spec: a record counts as an active hold by its
holder when `status = reserved` with `lease_expiry` absent (indefinite
legacy hold) or strictly in the future (§3 invariants). -/
def leaseActive (now : Nat) (r : BlockRec) : Bool :=
  r.recStatus == BStatus.reserved &&
    (match r.leaseExpiry with
     | none => true
     | some e => now < e)

/-- Modelled from the spec: the holder-exclusivity pre-check of
`Reserve` (§4.1 precondition (a)) — scan for another block currently
held by the same holder with an unexpired or absent lease. -/
def holderConflict (st : Store) (h : String) (b now : Nat) : Option Nat :=
  match st with
  | [] => none
  | (k, r) :: rest =>
    if k ≠ b && r.holder == some h && leaseActive now r then some k
    else holderConflict rest h b now

/-- Modelled from the spec: the transition predicate of `Reserve`
(§4.1 precondition (b)) — the target block must be absent, `available`,
or `reserved` with `lease_expiry` present and already in the past. -/
def eligibleRec (now : Nat) : Option BlockRec → Bool
  | none => true
  | some r =>
    r.recStatus == BStatus.available ||
      (r.recStatus == BStatus.reserved &&
        (match r.leaseExpiry with
         | some e => e < now
         | none => false))

/-- Modelled from the spec: `Reserve(blockID, holder, wantsLease)`
(§4.1) at time `now` with hold window `T` (`HOLD_DURATION`).  On success
returns the store after the conditional write together with the new
lease expiry (`none` in legacy mode). -/
def reserve (st : Store) (b : Nat) (h : String) (wantsLease : Bool) (now T : Nat) :
    Except ReserveErr (Store × Option Nat) :=
  match if h ≠ "" then holderConflict st h b now else none with
  | some other => Except.error (ReserveErr.HolderConflict other)
  | none =>
    if eligibleRec now (lookupBlock st b) then
      let exp := if wantsLease then some (now + T) else none
      Except.ok (upsert st b ⟨BStatus.reserved, some h, exp, now⟩, exp)
    else Except.error ReserveErr.NotAvailable

/-- Modelled from the spec: the sweep condition of `SweepExpired(now)`
(§4.2) — `status = reserved` and `lease_expiry` present and less than
`now`. -/
def sweepable (now : Nat) (r : BlockRec) : Bool :=
  r.recStatus == BStatus.reserved &&
    (match r.leaseExpiry with
     | some e => e < now
     | none => false)

/-- Modelled from the spec: the per-record reclamation of
`SweepExpired` — set `status = available`, clear holder and lease
fields (§4.2). -/
def sweepRec (now : Nat) (r : BlockRec) : BlockRec :=
  if sweepable now r then ⟨BStatus.available, none, none, now⟩ else r

/-- Modelled from the spec: the scan half of `SweepExpired(now)`,
applied to every record of the store. -/
def sweepStore (now : Nat) : Store → Store
  | [] => []
  | (k, r) :: rest => (k, sweepRec now r) :: sweepStore now rest

/-- Modelled from the spec: `SweepExpired(now) → count` (§4.2), the
swept store together with the number of reclaimed blocks. -/
def sweepExpired (st : Store) (now : Nat) : Store × Nat :=
  (sweepStore now st,
   (st.filter fun p => sweepable now p.2).length)

/-! ## Theorems -/

/-- C1: if the lock file exists but the pid it names has no `/proc`
entry or names a zombie process, then `_running` reports `False`
(not running), the stale lock file has been deleted as a side effect,
and a subsequent `_spawn` on the same lock is allowed to start. -/
theorem guard_stale_marker_self_heals (fs : FS) (pid : Nat)
    (hl : fs.lock = some (some pid))
    (hd : fs.proc pid = ProcEntry.absent ∨
      ∃ s, fs.proc pid = ProcEntry.statusIs s ∧ isZombie s = true) :
    (runningCheck fs).1 = false ∧ (runningCheck fs).2.lock = none ∧
      ∀ np, (spawn fs np).1 = SpawnRes.started202 np := by
  rcases hd with hp | ⟨s, hp, hz⟩
  · refine ⟨?_, ?_, ?_⟩ <;> simp [runningCheck, spawn, hl, hp]
  · refine ⟨?_, ?_, ?_⟩ <;> simp [runningCheck, spawn, hl, hp, hz]

theorem guard_stale_marker_self_heals_w :
    (runningCheck ⟨some (some 7), fun _ => ProcEntry.absent⟩).1 = false ∧
      (runningCheck ⟨some (some 7), fun _ => ProcEntry.absent⟩).2.lock = none ∧
      (spawn ⟨some (some 7), fun _ => ProcEntry.absent⟩ 42).1 = SpawnRes.started202 42 :=
  ⟨(guard_stale_marker_self_heals ⟨some (some 7), fun _ => ProcEntry.absent⟩ 7
      rfl (Or.inl rfl)).1,
   (guard_stale_marker_self_heals ⟨some (some 7), fun _ => ProcEntry.absent⟩ 7
      rfl (Or.inl rfl)).2.1,
   (guard_stale_marker_self_heals ⟨some (some 7), fun _ => ProcEntry.absent⟩ 7
      rfl (Or.inl rfl)).2.2 42⟩

/-- C2: if the lock file names a process that is alive and not a
zombie, `_spawn` answers `{"status": "busy"}` (HTTP 409) and performs no
state change at all: no process is spawned and the filesystem — the
lock file included — is left exactly as it was. -/
theorem spawn_busy_when_live (fs : FS) (pid np : Nat) (s : String)
    (hl : fs.lock = some (some pid))
    (hp : fs.proc pid = ProcEntry.statusIs s)
    (hz : isZombie s = false) :
    spawn fs np = (SpawnRes.busy409, fs) := by
  simp [spawn, runningCheck, hl, hp, hz]

theorem spawn_busy_when_live_w :
    spawn ⟨some (some 7), fun _ => ProcEntry.statusIs "Name:\tx\nState:\tR (running)"⟩ 42 =
      (SpawnRes.busy409,
        ⟨some (some 7), fun _ => ProcEntry.statusIs "Name:\tx\nState:\tR (running)"⟩) :=
  spawn_busy_when_live _ 7 42 "Name:\tx\nState:\tR (running)" rfl rfl (by decide)

/-- C3 counterexample: a marker that is present and readable and names
pid 5 whose `/proc/5` entry exists but whose `status` file read fails —
a process-liveness lookup failure that is neither an unreadable nor a
stale marker.  The claim requires the guard to report "running" here,
but `_running` reports `False` (not running) and deletes the marker. -/
theorem guard_lookup_failure_cex :
    (FS.mk (some (some 5)) fun _ => ProcEntry.unreadable).lock = some (some 5) ∧
      (FS.mk (some (some 5)) fun _ => ProcEntry.unreadable).proc 5 = ProcEntry.unreadable ∧
      (runningCheck (FS.mk (some (some 5)) fun _ => ProcEntry.unreadable)).1 = false ∧
      (runningCheck (FS.mk (some (some 5)) fun _ => ProcEntry.unreadable)).2.lock = none :=
  ⟨rfl, rfl, rfl, rfl⟩

/-- C3 amended: every failure on the guard's check path — an unreadable
or unparsable marker, a missing `/proc` entry, a failed status read, or
a zombie state — is treated as "not running" with the marker deleted;
the guard reports "running" exactly when the marker names a pid whose
`/proc` entry exists, whose status file is readable, and whose status is
not zombie. -/
theorem guard_running_iff_live (fs : FS) :
    ((runningCheck fs).1 = true ↔
      ∃ pid s, fs.lock = some (some pid) ∧
        fs.proc pid = ProcEntry.statusIs s ∧ isZombie s = false) ∧
    ((runningCheck fs).1 = false → (runningCheck fs).2.lock = none) := by
  obtain ⟨lk, pr⟩ := fs
  match lk with
  | none => simp [runningCheck]
  | some none => simp [runningCheck]
  | some (some pid) =>
    match hp : pr pid with
    | ProcEntry.absent => simp [runningCheck, hp]
    | ProcEntry.unreadable => simp [runningCheck, hp]
    | ProcEntry.statusIs s =>
      by_cases hz : isZombie s = true
      · simp [runningCheck, hp, hz]
      · rw [Bool.not_eq_true] at hz
        simp only [runningCheck, hp, hz, Bool.false_eq_true, if_false]
        refine ⟨?_, ?_⟩
        · simp only [true_iff]
          exact ⟨pid, s, rfl, hp, hz⟩
        · intro h; exact Bool.noConfusion h

theorem guard_running_iff_live_w :
    ((runningCheck (FS.mk (some (some 7))
        fun _ => ProcEntry.statusIs "State:\tR")).1 = true ↔
      ∃ pid s, (FS.mk (some (some 7))
          (fun _ => ProcEntry.statusIs "State:\tR") : FS).lock = some (some pid) ∧
        (fun _ => ProcEntry.statusIs "State:\tR" : Nat → ProcEntry) pid =
          ProcEntry.statusIs s ∧ isZombie s = false) ∧
    ((runningCheck (FS.mk (some (some 7))
        fun _ => ProcEntry.statusIs "State:\tR")).1 = false →
      (runningCheck (FS.mk (some (some 7))
        fun _ => ProcEntry.statusIs "State:\tR")).2.lock = none) :=
  guard_running_iff_live (FS.mk (some (some 7)) fun _ => ProcEntry.statusIs "State:\tR")

/-- C8: a successful `_spawn` writes the spawned process's pid into the
lock file, and both job scripts remove the lock file on normal exit
through their registered exit hooks. -/
theorem spawn_writes_pid_and_exit_cleanup (fs fs2 : FS) (np r : Nat)
    (h : spawn fs np = (SpawnRes.started202 r, fs2)) :
    r = np ∧ fs2.lock = some (some np) ∧
      ∀ g : FS, (authExitCleanup g).lock = none ∧ (indexExitCleanup g).lock = none := by
  have hclean : ∀ g : FS,
      (authExitCleanup g).lock = none ∧ (indexExitCleanup g).lock = none := by
    intro g
    constructor
    · rcases hg : g.lock with _ | o <;> simp [authExitCleanup, hg]
    · rfl
  by_cases hr : (runningCheck fs).1
  · simp [spawn, hr] at h
  · simp only [spawn, hr, Bool.false_eq_true, if_false, Prod.mk.injEq,
      SpawnRes.started202.injEq] at h
    exact ⟨h.1.symm, by rw [← h.2], hclean⟩

theorem spawn_writes_pid_and_exit_cleanup_w :
    (42 : Nat) = 42 ∧
      (spawn (FS.mk none fun _ => ProcEntry.absent) 42).2.lock = some (some 42) ∧
      ((authExitCleanup (FS.mk (some (some 3)) fun _ => ProcEntry.absent)).lock = none ∧
        (indexExitCleanup (FS.mk (some (some 3)) fun _ => ProcEntry.absent)).lock = none) :=
  ⟨(spawn_writes_pid_and_exit_cleanup (FS.mk none fun _ => ProcEntry.absent)
      (spawn (FS.mk none fun _ => ProcEntry.absent) 42).2 42 42 rfl).1,
   (spawn_writes_pid_and_exit_cleanup (FS.mk none fun _ => ProcEntry.absent)
      (spawn (FS.mk none fun _ => ProcEntry.absent) 42).2 42 42 rfl).2.1,
   (spawn_writes_pid_and_exit_cleanup (FS.mk none fun _ => ProcEntry.absent)
      (spawn (FS.mk none fun _ => ProcEntry.absent) 42).2 42 42 rfl).2.2
      (FS.mk (some (some 3)) fun _ => ProcEntry.absent)⟩

/-- A point write is visible to a point read of the same key. -/
theorem lookupBlock_upsert (st : Store) (b : Nat) (r : BlockRec) :
    lookupBlock (upsert st b r) b = some r := by
  induction st with
  | nil => simp [upsert, lookupBlock]
  | cons p rest ih =>
    obtain ⟨k, x⟩ := p
    by_cases hk : k = b
    · subst hk; simp [upsert, lookupBlock]
    · simp [upsert, lookupBlock, hk, ih]

/-- Reading through the sweep: the sweep rewrites each record
pointwise. -/
theorem lookupBlock_sweepStore (st : Store) (now b : Nat) :
    lookupBlock (sweepStore now st) b = (lookupBlock st b).map (sweepRec now) := by
  induction st with
  | nil => rfl
  | cons p rest ih =>
    obtain ⟨k, r⟩ := p
    by_cases hk : k = b <;> simp [sweepStore, lookupBlock, hk, ih]

/-- C4: the sequential lease scenario of spec §8 — `Reserve(100, "w1",
leased)` at t=1000 with `HOLD_DURATION=120000` succeeds with
`lease_expiry=121000`; `Reserve(100, "w2", leased)` at t=2000 fails
`NotAvailable`; `SweepExpired(125000)` reclaims block 100 to available;
`Reserve(100, "w2", leased)` at t=126000 succeeds. -/
theorem lease_sequential_scenario :
    reserve [(100, ⟨BStatus.available, none, none, 0⟩)] 100 "w1" true 1000 120000 =
      Except.ok ([(100, ⟨BStatus.reserved, some "w1", some 121000, 1000⟩)], some 121000) ∧
    reserve [(100, ⟨BStatus.reserved, some "w1", some 121000, 1000⟩)] 100 "w2" true
        2000 120000 = Except.error ReserveErr.NotAvailable ∧
    sweepExpired [(100, ⟨BStatus.reserved, some "w1", some 121000, 1000⟩)] 125000 =
      ([(100, ⟨BStatus.available, none, none, 125000⟩)], 1) ∧
    reserve [(100, ⟨BStatus.available, none, none, 125000⟩)] 100 "w2" true 126000 120000 =
      Except.ok ([(100, ⟨BStatus.reserved, some "w2", some 246000, 126000⟩)], some 246000) := by
  decide

/-- C5 counterexample: reserving at t0 = 0 with T = 120000 yields
`lease_expiry = 120000`, and at `now = t0 + T = 120000` exactly the
sweep reclaims nothing — the record is still reserved and the count is
0 — although the claim demands eligibility at every `now ≥ t0 + T`.
The sweep condition is `lease_expiry` strictly less than `now`. -/
theorem lease_boundary_cex :
    reserve [] 100 "w1" true 0 120000 =
      Except.ok ([(100, ⟨BStatus.reserved, some "w1", some 120000, 0⟩)], some 120000) ∧
    sweepExpired [(100, ⟨BStatus.reserved, some "w1", some 120000, 0⟩)] 120000 =
      ([(100, ⟨BStatus.reserved, some "w1", some 120000, 0⟩)], 0) := by
  decide

/-- C5 amended: a block successfully reserved with a lease at time `t0`
under `HOLD_DURATION = T` carries `lease_expiry = t0 + T` and is
reclaimed by `SweepExpired(now)` for every `now > t0 + T` (strictly
after expiry), and is not reclaimed for any `now ≤ t0 + T`. -/
theorem lease_sweepable_iff_strictly_past (st : Store) (b : Nat) (h : String)
    (t0 T : Nat) (st2 : Store) (e : Option Nat)
    (hres : reserve st b h true t0 T = Except.ok (st2, e)) :
    e = some (t0 + T) ∧
      ∀ now, lookupBlock (sweepExpired st2 now).1 b =
        some (if t0 + T < now then ⟨BStatus.available, none, none, now⟩
          else ⟨BStatus.reserved, some h, some (t0 + T), t0⟩) := by
  unfold reserve at hres
  split at hres
  · exact absurd hres (by simp)
  · split at hres
    · simp only [if_true, Except.ok.injEq, Prod.mk.injEq] at hres
      obtain ⟨hst2, he⟩ := hres
      subst hst2
      refine ⟨he.symm, fun now => ?_⟩
      rw [sweepExpired, lookupBlock_sweepStore, lookupBlock_upsert]
      by_cases hlt : t0 + T < now
      · simp [sweepRec, sweepable, hlt]
      · simp [sweepRec, sweepable, hlt]
    · exact absurd hres (by simp)

theorem lease_sweepable_iff_strictly_past_w :
    (some 121000 : Option Nat) = some (1000 + 120000) ∧
      lookupBlock
        (sweepExpired [(100, ⟨BStatus.reserved, some "w1", some 121000, 1000⟩)] 125000).1
        100 =
        some (if 1000 + 120000 < 125000 then ⟨BStatus.available, none, none, 125000⟩
          else ⟨BStatus.reserved, some "w1", some (1000 + 120000), 1000⟩) :=
  ⟨(lease_sweepable_iff_strictly_past [] 100 "w1" 1000 120000
      [(100, ⟨BStatus.reserved, some "w1", some 121000, 1000⟩)] (some 121000)
      (by decide)).1,
   (lease_sweepable_iff_strictly_past [] 100 "w1" 1000 120000
      [(100, ⟨BStatus.reserved, some "w1", some 121000, 1000⟩)] (some 121000)
      (by decide)).2 125000⟩

/-- The export accumulation loop appends one entry per filtered row. -/
theorem exportGo_eq (rows : List Row) (out : List Entry) :
    exportGo rows out = out ++ rows.map entryOf := by
  induction rows generalizing out with
  | nil => simp [exportGo]
  | cons r rest ih => simp [exportGo, ih]

/-- C9: the export is exactly one entry per stored row whose
`inscriptionID` exists with length strictly greater than 64, and an
entry's attribute list holds `Trait 6` iff the decimal digits of the
row's `block_number` contain 6, and `Trait 9` iff they contain 9. -/
theorem export_index_shape (rows : List Row) :
    exportIndex rows = (rows.filter exportPred).map entryOf ∧
      (∀ r : Row, (entryOf r).attributes = traitsOf r.blockNumber) ∧
      ∀ h : Nat,
        ((∃ t ∈ traitsOf h, t.traitType = "Trait 6") ↔ 6 ∈ decDigits h) ∧
        ((∃ t ∈ traitsOf h, t.traitType = "Trait 9") ↔ 9 ∈ decDigits h) := by
  refine ⟨by rw [exportIndex, exportGo_eq]; simp, fun r => rfl, fun h => ?_⟩
  by_cases hc6 : (decDigits h).contains 6 <;>
    by_cases hc9 : (decDigits h).contains 9 <;>
      simp_all [traitsOf]

theorem export_index_shape_w :
    exportIndex [⟨1669, some (String.mk (List.replicate 66 'a'))⟩, ⟨25, none⟩] =
      ([(⟨1669, some (String.mk (List.replicate 66 'a'))⟩ : Row),
          ⟨25, none⟩].filter exportPred).map entryOf ∧
      (exportPred ⟨1669, some (String.mk (List.replicate 66 'a'))⟩ = true ∧
        exportPred ⟨25, none⟩ = false) ∧
      ((∃ t ∈ traitsOf 1669, t.traitType = "Trait 6") ↔ 6 ∈ decDigits 1669) ∧
      ((∃ t ∈ traitsOf 1669, t.traitType = "Trait 9") ↔ 9 ∈ decDigits 1669) :=
  ⟨(export_index_shape [⟨1669, some (String.mk (List.replicate 66 'a'))⟩, ⟨25, none⟩]).1,
   ⟨by decide, rfl⟩,
   ((export_index_shape [⟨1669, some (String.mk (List.replicate 66 'a'))⟩, ⟨25, none⟩]).2.2
      1669).1,
   ((export_index_shape [⟨1669, some (String.mk (List.replicate 66 'a'))⟩, ⟨25, none⟩]).2.2
      1669).2⟩

/-- Key membership after appending one item. -/
theorem hasKey_append (st : List QItem) (it : QItem) (b : Nat) :
    hasKey (st ++ [it]) b = (hasKey st b || (it.blockNumber == b)) := by
  simp [hasKey]

/-- The enqueue loop only appends fresh-key items and counts exactly
them. -/
theorem bulkEnqueueGo_appends (now : String) (bs : List Nat) (st : List QItem) (n : Nat) :
    ∃ fresh, bulkEnqueueGo now bs st n = (st ++ fresh, n + fresh.length) ∧
      ∀ it ∈ fresh, hasKey st it.blockNumber = false := by
  induction bs generalizing st n with
  | nil => exact ⟨[], by simp [bulkEnqueueGo], by simp⟩
  | cons b bs ih =>
    by_cases hb : hasKey st b
    · obtain ⟨fresh, heq, hf⟩ := ih st n
      exact ⟨fresh, by simpa [bulkEnqueueGo, hb] using heq, hf⟩
    · obtain ⟨fresh, heq, hf⟩ := ih (st ++ [mkQItem b now]) (n + 1)
      refine ⟨mkQItem b now :: fresh, ?_, ?_⟩
      · rw [bulkEnqueueGo]
        simp only [hb, Bool.false_eq_true, if_false, heq, List.append_assoc,
          List.singleton_append, List.length_cons, Prod.mk.injEq]
        exact ⟨trivial, by omega⟩
      · intro it hmem
        rcases List.mem_cons.mp hmem with hmem1 | hmem1
        · subst hmem1
          simpa [mkQItem] using (Bool.not_eq_true _).mp hb
        · have hkf := hf it hmem1
          rw [hasKey_append] at hkf
          exact (Bool.or_eq_false_iff.mp hkf).1

/-- Keys after the enqueue loop: the old keys plus the request list. -/
theorem hasKey_bulkEnqueueGo (now : String) (bs : List Nat) (st : List QItem)
    (n b : Nat) :
    hasKey (bulkEnqueueGo now bs st n).1 b = (hasKey st b || bs.contains b) := by
  induction bs generalizing st n with
  | nil => simp [bulkEnqueueGo]
  | cons x bs ih =>
    by_cases hx : hasKey st x
    · rw [bulkEnqueueGo]
      simp only [hx, if_true, ih]
      by_cases hxb : x = b
      · subst hxb; simp [hx]
      · simp [List.contains, hxb, Ne.symm hxb]
    · rw [bulkEnqueueGo]
      simp only [hx, Bool.false_eq_true, if_false, ih, hasKey_append]
      by_cases hxb : x = b
      · subst hxb; simp [mkQItem]
      · have hxb2 : (x == b) = false := beq_eq_false_iff_ne.mpr hxb
        simp [mkQItem, List.contains, hxb2, hxb, Ne.symm hxb]

/-- The enqueue loop is a no-op when every requested key is already
present. -/
theorem bulkEnqueueGo_noop (now : String) (bs : List Nat) (st : List QItem) (n : Nat)
    (hall : ∀ b ∈ bs, hasKey st b = true) :
    bulkEnqueueGo now bs st n = (st, n) := by
  induction bs with
  | nil => rfl
  | cons b bs ih =>
    rw [bulkEnqueueGo]
    simp only [hall b (by simp), if_true]
    exact ih fun x hx => hall x (by simp [hx])

/-- C10: bulk-enqueue is duplicate-safe and idempotent — each block is
written only when its key is absent, present rows are left unchanged
(the table after the call is the old table plus only fresh-key rows),
`added` counts exactly the newly created rows, and a second call with
the same list returns `added = 0` and changes no row. -/
theorem bulk_enqueue_idempotent (st : List QItem) (blocks : List Nat) (now now2 : String) :
    (∃ fresh, (bulkEnqueue st blocks now).1 = st ++ fresh ∧
        (bulkEnqueue st blocks now).2 = fresh.length ∧
        ∀ it ∈ fresh, hasKey st it.blockNumber = false) ∧
      bulkEnqueue (bulkEnqueue st blocks now).1 blocks now2 =
        ((bulkEnqueue st blocks now).1, 0) := by
  constructor
  · obtain ⟨fresh, heq, hf⟩ := bulkEnqueueGo_appends now blocks st 0
    exact ⟨fresh, by simp [bulkEnqueue, heq], by simp [bulkEnqueue, heq], hf⟩
  · apply bulkEnqueueGo_noop
    intro b hb
    rw [bulkEnqueue, hasKey_bulkEnqueueGo]
    simp [List.contains, hb]

theorem bulk_enqueue_idempotent_w :
    ((∃ fresh, (bulkEnqueue [mkQItem 830500 "t0"] [830500, 830501] "t1").1 =
          [mkQItem 830500 "t0"] ++ fresh ∧
        (bulkEnqueue [mkQItem 830500 "t0"] [830500, 830501] "t1").2 = fresh.length ∧
        ∀ it ∈ fresh, hasKey [mkQItem 830500 "t0"] it.blockNumber = false) ∧
      bulkEnqueue (bulkEnqueue [mkQItem 830500 "t0"] [830500, 830501] "t1").1
          [830500, 830501] "t2" =
        ((bulkEnqueue [mkQItem 830500 "t0"] [830500, 830501] "t1").1, 0)) :=
  bulk_enqueue_idempotent [mkQItem 830500 "t0"] [830500, 830501] "t1" "t2"

/-- The announce translation never lets the POST failure escape. -/
theorem announceCaught_snd (r : Except String Unit) (tag : String) (logs : List String) :
    (announceCaught r tag logs).2 = none := by
  cases r <;> rfl

/-- The height loop of `blockWatcher.py` only appends store rows. -/
theorem processRange_rows_mono (env : WEnv) :
    ∀ (hs : List Nat) (s : WState), ∃ d, (processRange env s hs).1.rows = s.rows ++ d := by
  intro hs
  induction hs with
  | nil => intro s; exact ⟨[], by simp [processRange]⟩
  | cons h rest ih =>
    intro s
    cases hblk : env.blockOf h with
    | error e => exact ⟨[], by simp [processRange, hblk]⟩
    | ok blk =>
      by_cases hc : criteria blk
      · cases hput : env.putOutcome h with
        | error e => exact ⟨[], by simp [processRange, hblk, hc, hput]⟩
        | ok u =>
          cases hpo : env.postOutcome h with
          | error e =>
            obtain ⟨d, hd⟩ :=
              ih ⟨s.last, s.rows ++ [blk], h, s.logs ++ ["WARN: announce failed: " ++ e]⟩
            refine ⟨blk :: d, ?_⟩
            simp only [processRange, hblk, hc, if_true, hput, hpo, announceCaught]
            exact hd.trans (by simp)
          | ok v =>
            obtain ⟨d, hd⟩ := ih ⟨s.last, s.rows ++ [blk], h, s.logs⟩
            refine ⟨blk :: d, ?_⟩
            simp only [processRange, hblk, hc, if_true, hput, hpo, announceCaught]
            exact hd.trans (by simp)
      · replace hc := Bool.not_eq_true _ |>.mp hc
        obtain ⟨d, hd⟩ := ih ⟨s.last, s.rows, h, s.logs⟩
        refine ⟨d, ?_⟩
        simp only [processRange, hblk, hc, Bool.false_eq_true, if_false]
        exact hd

/-- A `blockWatcher.py` iteration only appends store rows. -/
theorem watcherIter_rows_mono (env : WEnv) (st : WState) :
    ∃ d, (watcherIter env st).1.rows = st.rows ++ d := by
  have hbody : ∃ d, (watcherBody env st).1.rows = st.rows ++ d := by
    cases htip : env.tip with
    | error e => exact ⟨[], by simp [watcherBody, htip]⟩
    | ok tip =>
      by_cases hgt : tip > st.last
      · obtain ⟨d, hd⟩ := processRange_rows_mono env
          (List.range' (st.last + 1) (tip - st.last)) st
        cases hpr : processRange env st (List.range' (st.last + 1) (tip - st.last)) with
        | mk s1 e1 =>
          rw [hpr] at hd
          cases e1 with
          | none =>
            refine ⟨d, ?_⟩
            simp only [watcherBody, htip, hgt, if_true, hpr]
            exact hd
          | some e =>
            refine ⟨d, ?_⟩
            simp only [watcherBody, htip, hgt, if_true, hpr]
            exact hd
      · exact ⟨[], by simp [watcherBody, htip, hgt]⟩
  obtain ⟨d, hd⟩ := hbody
  cases hbd : watcherBody env st with
  | mk s1 e1 =>
    rw [hbd] at hd
    cases e1 with
    | none =>
      refine ⟨d, ?_⟩
      simp only [watcherIter, hbd]
      exact hd
    | some e =>
      refine ⟨d, ?_⟩
      simp only [watcherIter, hbd]
      exact hd

/-- Oracle environments that agree on everything except the announce
outcomes drive the height loop to the same rows, saved height and
escape. -/
theorem processRange_announce_indep (env1 env2 : WEnv)
    (hb : env1.blockOf = env2.blockOf) (hp : env1.putOutcome = env2.putOutcome) :
    ∀ (hs : List Nat) (s t : WState),
      s.last = t.last → s.rows = t.rows → s.savedLast = t.savedLast →
      (processRange env1 s hs).1.last = (processRange env2 t hs).1.last ∧
        (processRange env1 s hs).1.rows = (processRange env2 t hs).1.rows ∧
        (processRange env1 s hs).1.savedLast = (processRange env2 t hs).1.savedLast ∧
        (processRange env1 s hs).2 = (processRange env2 t hs).2 := by
  intro hs
  induction hs with
  | nil => intro s t h1 h2 h3; exact ⟨h1, h2, h3, rfl⟩
  | cons h rest ih =>
    intro s t h1 h2 h3
    cases hblk : env2.blockOf h with
    | error e =>
      have hblk1 : env1.blockOf h = Except.error e := by rw [hb, hblk]
      simp only [processRange, hblk, hblk1]
      exact ⟨h1, h2, h3, trivial⟩
    | ok blk =>
      have hblk1 : env1.blockOf h = Except.ok blk := by rw [hb, hblk]
      by_cases hc : criteria blk
      · cases hput : env2.putOutcome h with
        | error e =>
          have hput1 : env1.putOutcome h = Except.error e := by rw [hp, hput]
          simp only [processRange, hblk, hblk1, hc, if_true, hput, hput1]
          exact ⟨h1, h2, h3, trivial⟩
        | ok u =>
          have hput1 : env1.putOutcome h = Except.ok u := by rw [hp, hput]
          cases hpo1 : env1.postOutcome h with
          | error e1 =>
            cases hpo2 : env2.postOutcome h with
            | error e2 =>
              have k := ih ⟨s.last, s.rows ++ [blk], h,
                  s.logs ++ ["WARN: announce failed: " ++ e1]⟩
                ⟨t.last, t.rows ++ [blk], h,
                  t.logs ++ ["WARN: announce failed: " ++ e2]⟩
                h1 (by simp [h2]) rfl
              simp only [processRange, hblk, hblk1, hc, if_true, hput, hput1,
                hpo1, hpo2, announceCaught]
              exact ⟨k.1, k.2.1, k.2.2.1, k.2.2.2⟩
            | ok v2 =>
              have k := ih ⟨s.last, s.rows ++ [blk], h,
                  s.logs ++ ["WARN: announce failed: " ++ e1]⟩
                ⟨t.last, t.rows ++ [blk], h, t.logs⟩
                h1 (by simp [h2]) rfl
              simp only [processRange, hblk, hblk1, hc, if_true, hput, hput1,
                hpo1, hpo2, announceCaught]
              exact ⟨k.1, k.2.1, k.2.2.1, k.2.2.2⟩
          | ok v1 =>
            cases hpo2 : env2.postOutcome h with
            | error e2 =>
              have k := ih ⟨s.last, s.rows ++ [blk], h, s.logs⟩
                ⟨t.last, t.rows ++ [blk], h,
                  t.logs ++ ["WARN: announce failed: " ++ e2]⟩
                h1 (by simp [h2]) rfl
              simp only [processRange, hblk, hblk1, hc, if_true, hput, hput1,
                hpo1, hpo2, announceCaught]
              exact ⟨k.1, k.2.1, k.2.2.1, k.2.2.2⟩
            | ok v2 =>
              have k := ih ⟨s.last, s.rows ++ [blk], h, s.logs⟩
                ⟨t.last, t.rows ++ [blk], h, t.logs⟩
                h1 (by simp [h2]) rfl
              simp only [processRange, hblk, hblk1, hc, if_true, hput, hput1,
                hpo1, hpo2, announceCaught]
              exact ⟨k.1, k.2.1, k.2.2.1, k.2.2.2⟩
      · replace hc := Bool.not_eq_true _ |>.mp hc
        have k := ih ⟨s.last, s.rows, h, s.logs⟩ ⟨t.last, t.rows, h, t.logs⟩
          h1 h2 rfl
        simp only [processRange, hblk, hblk1, hc, Bool.false_eq_true, if_false]
        exact ⟨k.1, k.2.1, k.2.2.1, k.2.2.2⟩

/-- C6: publishing a committed change is best-effort.  The announce
translation (`announceCaught`, shared by both watchers) never lets a
send failure escape; a `blockWatcher.py` iteration never removes a
committed store row; and two environments that differ only in the
announce outcomes produce the same store rows, the same `last`, the
same saved height and no escape — a publish failure is never raised to
the caller and never gates any write. -/
theorem announce_best_effort (env1 env2 : WEnv) (st : WState)
    (hb : env1.blockOf = env2.blockOf) (hp : env1.putOutcome = env2.putOutcome)
    (ht : env1.tip = env2.tip) :
    (∀ r tag logs, (announceCaught r tag logs).2 = none) ∧
      (∃ d, (watcherIter env1 st).1.rows = st.rows ++ d) ∧
      (watcherIter env1 st).1.rows = (watcherIter env2 st).1.rows ∧
      (watcherIter env1 st).1.last = (watcherIter env2 st).1.last ∧
      (watcherIter env1 st).1.savedLast = (watcherIter env2 st).1.savedLast ∧
      (watcherIter env1 st).2 = none ∧ (watcherIter env2 st).2 = none := by
  refine ⟨announceCaught_snd, watcherIter_rows_mono env1 st, ?_⟩
  have hbody : (watcherBody env1 st).1.last = (watcherBody env2 st).1.last ∧
      (watcherBody env1 st).1.rows = (watcherBody env2 st).1.rows ∧
      (watcherBody env1 st).1.savedLast = (watcherBody env2 st).1.savedLast ∧
      (watcherBody env1 st).2 = (watcherBody env2 st).2 := by
    cases htip : env2.tip with
    | error e =>
      have htip1 : env1.tip = Except.error e := by rw [ht, htip]
      simp [watcherBody, htip, htip1]
    | ok tip =>
      have htip1 : env1.tip = Except.ok tip := by rw [ht, htip]
      by_cases hgt : tip > st.last
      · have k := processRange_announce_indep env1 env2 hb hp
          (List.range' (st.last + 1) (tip - st.last)) st st rfl rfl rfl
        cases hpr1 : processRange env1 st (List.range' (st.last + 1) (tip - st.last)) with
        | mk s1 e1 =>
          cases hpr2 : processRange env2 st (List.range' (st.last + 1) (tip - st.last)) with
          | mk s2 e2 =>
            rw [hpr1, hpr2] at k
            have k1 : s1.last = s2.last := k.1
            have k2 : s1.rows = s2.rows := k.2.1
            have k3 : s1.savedLast = s2.savedLast := k.2.2.1
            have k4 : e1 = e2 := k.2.2.2
            subst k4
            simp only [watcherBody, htip, htip1, hgt, if_true, hpr1, hpr2]
            cases e1 with
            | none => exact ⟨rfl, k2, k3, rfl⟩
            | some e => exact ⟨k1, k2, k3, rfl⟩
      · simp [watcherBody, htip, htip1, hgt]
  cases hb1 : watcherBody env1 st with
  | mk s1 e1 =>
    cases hb2 : watcherBody env2 st with
    | mk s2 e2 =>
      rw [hb1, hb2] at hbody
      have g1 : s1.last = s2.last := hbody.1
      have g2 : s1.rows = s2.rows := hbody.2.1
      have g3 : s1.savedLast = s2.savedLast := hbody.2.2.1
      have g4 : e1 = e2 := hbody.2.2.2
      subst g4
      simp only [watcherIter, hb1, hb2]
      cases e1 with
      | none => exact ⟨g2, g1, g3, rfl, rfl⟩
      | some e => exact ⟨g2, g1, g3, rfl, rfl⟩

theorem announce_best_effort_w :
    (∀ r tag logs, (announceCaught r tag logs).2 = none) ∧
      (∃ d, (watcherIter
          ⟨Except.ok 1, fun h => Except.ok ⟨h, "8b17", "x", 0⟩,
            fun _ => Except.ok (), fun _ => Except.error "connection refused"⟩
          ⟨0, [], 0, []⟩).1.rows = (⟨0, [], 0, []⟩ : WState).rows ++ d) ∧
      (watcherIter
          ⟨Except.ok 1, fun h => Except.ok ⟨h, "8b17", "x", 0⟩,
            fun _ => Except.ok (), fun _ => Except.error "connection refused"⟩
          ⟨0, [], 0, []⟩).1.rows =
        (watcherIter
          ⟨Except.ok 1, fun h => Except.ok ⟨h, "8b17", "x", 0⟩,
            fun _ => Except.ok (), fun _ => Except.ok ()⟩
          ⟨0, [], 0, []⟩).1.rows ∧
      (watcherIter
          ⟨Except.ok 1, fun h => Except.ok ⟨h, "8b17", "x", 0⟩,
            fun _ => Except.ok (), fun _ => Except.error "connection refused"⟩
          ⟨0, [], 0, []⟩).1.last =
        (watcherIter
          ⟨Except.ok 1, fun h => Except.ok ⟨h, "8b17", "x", 0⟩,
            fun _ => Except.ok (), fun _ => Except.ok ()⟩
          ⟨0, [], 0, []⟩).1.last ∧
      (watcherIter
          ⟨Except.ok 1, fun h => Except.ok ⟨h, "8b17", "x", 0⟩,
            fun _ => Except.ok (), fun _ => Except.error "connection refused"⟩
          ⟨0, [], 0, []⟩).1.savedLast =
        (watcherIter
          ⟨Except.ok 1, fun h => Except.ok ⟨h, "8b17", "x", 0⟩,
            fun _ => Except.ok (), fun _ => Except.ok ()⟩
          ⟨0, [], 0, []⟩).1.savedLast ∧
      (watcherIter
          ⟨Except.ok 1, fun h => Except.ok ⟨h, "8b17", "x", 0⟩,
            fun _ => Except.ok (), fun _ => Except.error "connection refused"⟩
          ⟨0, [], 0, []⟩).2 = none ∧
      (watcherIter
          ⟨Except.ok 1, fun h => Except.ok ⟨h, "8b17", "x", 0⟩,
            fun _ => Except.ok (), fun _ => Except.ok ()⟩
          ⟨0, [], 0, []⟩).2 = none :=
  announce_best_effort
    ⟨Except.ok 1, fun h => Except.ok ⟨h, "8b17", "x", 0⟩,
      fun _ => Except.ok (), fun _ => Except.error "connection refused"⟩
    ⟨Except.ok 1, fun h => Except.ok ⟨h, "8b17", "x", 0⟩,
      fun _ => Except.ok (), fun _ => Except.ok ()⟩
    ⟨0, [], 0, []⟩ rfl rfl rfl


/-- C7: no exception raised inside one iteration of either watcher main
loop escapes: the `try/except` around the iteration body catches every
failure of the tip fetch, block fetch, store write, announce and
confirmation scan, and the process proceeds to the next poll cycle. -/
theorem watcher_iterations_never_escape (env : WEnv) (st : WState)
    (env2 : W2Env) (st2 : W2State) :
    (watcherIter env st).2 = none ∧ (w2Iter env2 st2).2 = none := by
  constructor
  · cases hbd : watcherBody env st with
    | mk s1 e1 =>
      cases e1 with
      | none => simp [watcherIter, hbd]
      | some e => simp [watcherIter, hbd]
  · cases hbd : w2Body env2 st2 with
    | mk s1 e1 =>
      cases e1 with
      | none => simp [w2Iter, hbd]
      | some e => simp [w2Iter, hbd]

end DynamicIndexer
